import Mathlib

/-!
# Verification of the git-multi-push orchestrator

A shallow embedding of the `git-multi-push` command-line tool
(`cmd/git-multi-push/main.go` and `pkg/git/operations.go`).

The tool delegates all repository work to the external `git` binary, so every
subprocess invocation is modelled as an *event* recorded in a trace, and the
outcome of each external call (its combined output on failure, or success) is
supplied as an environment parameter.  Interactive input is modelled as the
list of already-whitespace-trimmed answers returned by `readUserInput`, in the
order the prompts occur.  Pure computations (URL construction, output
classification, message formatting, JSON serialization of the configuration)
are translated directly from the Go source.
-/

namespace GitMultiPush

/-- The configuration record (`Config` in `pkg/git/operations.go`): four string
fields serialized under the JSON keys `github_username`, `github_repo`,
`gitlab_username`, `gitlab_repo`. -/
structure Config where
  githubUsername : String
  githubRepo : String
  gitlabUsername : String
  gitlabRepo : String
deriving DecidableEq, Repr

/-- `startsWithL p l` : the pattern `p` is a leading segment of `l`.
Auxiliary for the substring test below. -/
def startsWithL : List Char → List Char → Bool
  | [], _ => true
  | _ :: _, [] => false
  | p :: ps, c :: cs => p == c && startsWithL ps cs

/-- `containsL pat l` : `pat` occurs contiguously inside `l`.  Models Go's
`strings.Contains` on rune sequences (equivalent to the byte-level test for
the ASCII patterns the tool searches for). -/
def containsL (pat : List Char) : List Char → Bool
  | [] => startsWithL pat []
  | c :: cs => startsWithL pat (c :: cs) || containsL pat cs

/-- `strContains s pat` models Go `strings.Contains s pat`. -/
def strContains (s pat : String) : Bool :=
  containsL pat.data s.data

/-- Constant tail of the protected-branch remediation message
(`pkg/git/operations.go`, `pushToRemote`). -/
def protectedBranchTail : String :=
  "\n\nGitLab protected branch detected. You have several options:\n\n" ++
    "1. Use a development branch instead:\n   git checkout -b development\n   ./git-multi-push\n\n" ++
    "2. Unprotect the branch in GitLab:\n" ++
    "   - Go to GitLab repository → Settings → Repository → Protected Branches\n" ++
    "   - Unprotect or modify permissions for the branch\n\n" ++
    "3. Use GitLab's web interface to merge changes\n\n" ++
    "See README for more detailed instructions on working with protected branches."

/-- The templated remediation message produced by `pushToRemote` when the
combined push output mentions a protected branch
(`pkg/git/operations.go`, first branch of the failure classification). -/
def protectedBranchMessage (remote outputStr : String) : String :=
  "failed to push to " ++ remote ++ ": " ++ outputStr ++ protectedBranchTail

/-- The templated remediation message produced by `pushToRemote` when the
combined push output mentions `fetch first`
(`pkg/git/operations.go`, second branch of the failure classification). -/
def fetchFirstMessage (remote outputStr : String) : String :=
  "failed to push to " ++ remote ++ ": " ++ outputStr ++
    "\n\nTo resolve this, you can either:\n" ++
    "1. Pull and merge changes (recommended):\n   git pull " ++ remote ++
    " main --allow-unrelated-histories\n\n" ++
    "2. Force push (use with caution):\n   ./git-multi-push --force\n\n" ++
    "See README for more detailed instructions."

/-- The failure classification of `pushToRemote` (`pkg/git/operations.go`):
given the remote name and the combined output of a *failed* `git push`,
produce the error message returned to the caller. -/
def pushFailureError (remote outputStr : String) : String :=
  if strContains outputStr "protected branch" then
    protectedBranchMessage remote outputStr
  else if strContains outputStr "fetch first" then
    fetchFirstMessage remote outputStr
  else
    "failed to push to " ++ remote ++ ": " ++ outputStr

/-- `pushToRemote` (`pkg/git/operations.go`): runs `git push remote [--force]`.
`pushOutput remote force = none` means the subprocess succeeded; `some out`
means it failed with combined output `out`, which is then classified. -/
def pushToRemote (pushOutput : String → Bool → Option String)
    (remote : String) (forcePush : Bool) : Option String :=
  match pushOutput remote forcePush with
  | none => none
  | some out => some (pushFailureError remote out)

/-- The remote-URL table built by `Push` (`pkg/git/operations.go`): both
entries are constructed unconditionally from the configuration, with no
emptiness check on the username or repository fields.  The Go code uses a map
with the two fixed keys; this association list records the same two entries
(insertion order; the iteration order of a Go map is unspecified, so the
theorems about the push loop quantify over arbitrary orders). -/
def remoteUrls (c : Config) : List (String × String) :=
  [("github", "git@github.com:" ++ c.githubUsername ++ "/" ++ c.githubRepo ++ ".git"),
   ("gitlab", "git@gitlab.com:" ++ c.gitlabUsername ++ "/" ++ c.gitlabRepo ++ ".git")]

/-- Subprocess actions performed by the push loop: registering/updating a
remote (`addRemote`) and pushing to it (`pushToRemote`). -/
inductive PushEvent where
  | addRemote (name url : String)
  | pushRemote (name : String) (force : Bool)
deriving DecidableEq, Repr

/-- Outcomes of the external calls made by the push loop.
`addResult name url = none` means the `git remote get-url`/`set-url`/`add`
sequence of `addRemote` succeeded, `some e` that it failed with error `e`;
`pushOutput name force = none` means `git push` succeeded, `some out` that it
failed with combined output `out`. -/
structure PushEnv where
  addResult : String → String → Option String
  pushOutput : String → Bool → Option String

/-- The loop body of `Push` (`pkg/git/operations.go`): for each remote in
iteration order, register/update it and push to it, returning the first error
and performing nothing further after a failure.  Returns the trace of
subprocess events together with the final result. -/
def pushLoop (env : PushEnv) (force : Bool) :
    List (String × String) → List PushEvent × Option String
  | [] => ([], none)
  | (name, url) :: rest =>
    match env.addResult name url with
    | some e => ([PushEvent.addRemote name url], some e)
    | none =>
      match pushToRemote env.pushOutput name force with
      | some e => ([PushEvent.addRemote name url, PushEvent.pushRemote name force], some e)
      | none =>
        let r := pushLoop env force rest
        (PushEvent.addRemote name url :: PushEvent.pushRemote name force :: r.1, r.2)

/-- `Push` (`pkg/git/operations.go`) with the remote table iterated in
insertion order. -/
def Push (env : PushEnv) (c : Config) (force : Bool) : List PushEvent × Option String :=
  pushLoop env force (remoteUrls c)

/-- The events emitted by a run of the push loop over remotes that all
succeed. -/
def okEvents (force : Bool) : List (String × String) → List PushEvent
  | [] => []
  | (name, url) :: rest =>
    PushEvent.addRemote name url :: PushEvent.pushRemote name force :: okEvents force rest

/-- The configuration used to exhibit C1's failing input: the gitlab username
and repository fields are the empty string (the "press Enter to skip" setup
path of the README). -/
def configGitlabUnset : Config :=
  { githubUsername := "user", githubRepo := "repo",
    gitlabUsername := "", gitlabRepo := "" }

/-- An environment in which every external call succeeds. -/
def allOkPushEnv : PushEnv :=
  ⟨fun _ _ => none, fun _ _ => none⟩

/-- Go's `strings.ToLower`, modelled as the character-wise ASCII lowercasing
the comparisons in `main.go` rely on. -/
def toLowerGo (s : String) : String :=
  String.mk (s.data.map Char.toLower)

/-- The acceptance test of both yes/no prompts in `main.go` (`handleCommit`
and `handleMerge`): the trimmed input is accepted exactly when
`strings.ToLower(input) == "y"`. -/
def promptAccepted (s : String) : Bool :=
  toLowerGo s == "y"

/-- Subprocess and terminal actions performed by `handleMerge` and
`MergeBranch` (`main.go` / `pkg/git/operations.go`). -/
inductive MergeEvent where
  | listBranchesCall
  | currentBranchCall
  | print (s : String)
  | prompt (s : String)
  | checkout (branch : String)
  | mergeCall (fromBranch message : String)
deriving DecidableEq, Repr

/-- Outcomes of the external calls made by the merge step.  `answers` is the
list of already-trimmed strings returned by successive `readUserInput` calls.
`checkoutOutput b = some out` means `git checkout b` failed with combined
output `out`; `mergeOutput from msg` likewise for `git merge from -m msg`. -/
structure MergeEnv where
  branchesResult : Except String (List String)
  currentResult : Except String String
  answers : Nat → String
  checkoutOutput : String → Option String
  mergeOutput : String → String → Option String

/-- `ValidateMerge` (`pkg/git/operations.go`). -/
def ValidateMerge (fromBranch toBranch : String) : Option String :=
  if fromBranch = toBranch then some "cannot merge a branch into itself" else none

/-- `MergeBranch` (`pkg/git/operations.go`): validate, then `git checkout`
the target branch, then `git merge` the source branch with the given commit
message (`-m` is passed for the nonempty messages `handleMerge` supplies). -/
def MergeBranch (env : MergeEnv) (fromBranch toBranch message : String) :
    List MergeEvent × Option String :=
  match ValidateMerge fromBranch toBranch with
  | some e => ([], some e)
  | none =>
    match env.checkoutOutput toBranch with
    | some out =>
      ([MergeEvent.checkout toBranch],
        some ("failed to checkout " ++ toBranch ++ ": " ++ out))
    | none =>
      match env.mergeOutput fromBranch message with
      | some out =>
        ([MergeEvent.checkout toBranch, MergeEvent.mergeCall fromBranch message],
          some ("failed to merge " ++ fromBranch ++ " into " ++ toBranch ++ ": " ++ out))
      | none =>
        ([MergeEvent.checkout toBranch, MergeEvent.mergeCall fromBranch message], none)

/-- The candidate list of `handleMerge` (`main.go`): the local branches with
the current branch filtered out. -/
def availableBranches (branches : List String) (current : String) : List String :=
  branches.filter (fun b => b != current)

/-- The numbered branch listing printed by `handleMerge` (`main.go`). -/
def branchListing (avail : List String) : List MergeEvent :=
  avail.enum.map (fun p => MergeEvent.print (toString (p.1 + 1) ++ ": " ++ p.2))

/-- `handleMerge` (`main.go`): list branches, query the current branch,
filter the candidates, skip when none remain, otherwise prompt to merge,
prompt for a target (validated by exact name against the candidate list),
prompt for a message (defaulting to the generated one) and run
`MergeBranch`.  Returns the event trace and the result (`none` = success). -/
def handleMerge (env : MergeEnv) : List MergeEvent × Option String :=
  match env.branchesResult with
  | .error e => ([MergeEvent.listBranchesCall], some e)
  | .ok branches =>
    match env.currentResult with
    | .error e => ([MergeEvent.listBranchesCall, MergeEvent.currentBranchCall], some e)
    | .ok currentBranch =>
      let pre := [MergeEvent.listBranchesCall, MergeEvent.currentBranchCall]
      let avail := availableBranches branches currentBranch
      if avail.isEmpty then
        (pre ++ [MergeEvent.print "\nNo other branches available for merging."], none)
      else
        let tr1 := pre ++
          [MergeEvent.print ("\nCurrent branch: " ++ currentBranch),
           MergeEvent.prompt "Would you like to merge your changes? [y/N]: "]
        if promptAccepted (env.answers 0) then
          let tr2 := tr1 ++ [MergeEvent.print "\nAvailable branches:"] ++
            branchListing avail ++
            [MergeEvent.prompt "\nEnter the branch name to merge into: "]
          let targetBranch := env.answers 1
          if avail.contains targetBranch then
            let tr3 := tr2 ++ [MergeEvent.prompt "Enter merge commit message: "]
            let message0 := env.answers 2
            let message :=
              if message0 = "" then
                "Merge branch '" ++ currentBranch ++ "' into " ++ targetBranch
              else message0
            let mr := MergeBranch env currentBranch targetBranch message
            match mr.2 with
            | some e => (tr3 ++ mr.1, some e)
            | none =>
              (tr3 ++ mr.1 ++
                [MergeEvent.print ("Successfully merged '" ++ currentBranch ++
                  "' into '" ++ targetBranch ++ "'")], none)
          else
            (tr2, some ("branch '" ++ targetBranch ++ "' not found"))
        else
          (tr1, none)

/-- A merge environment in which the candidate list is nonempty, the merge
prompt is accepted, and a name outside the candidate list is supplied as the
target. -/
def mergeEnvBadTarget : MergeEnv :=
  { branchesResult := .ok ["main", "dev"], currentResult := .ok "main",
    answers := fun n => if n = 0 then "y" else if n = 1 then "feature" else "",
    checkoutOutput := fun _ => none, mergeOutput := fun _ _ => none }

/-- A merge environment in which the only local branch is the current one. -/
def mergeEnvNoCandidates : MergeEnv :=
  { branchesResult := .ok ["main"], currentResult := .ok "main",
    answers := fun _ => "", checkoutOutput := fun _ => none, mergeOutput := fun _ _ => none }

/-- A merge environment with candidates in which the merge prompt is
declined. -/
def mergeEnvDecline : MergeEnv :=
  { branchesResult := .ok ["main", "dev"], currentResult := .ok "main",
    answers := fun _ => "n", checkoutOutput := fun _ => none, mergeOutput := fun _ _ => none }

/-- The prompt/listing prefix of the trace of an accepted merge in
`handleMerge`, before any checkout/merge subprocess call. -/
def mergeAcceptPrefix (branches : List String) (currentBranch : String) :
    List MergeEvent :=
  [MergeEvent.listBranchesCall, MergeEvent.currentBranchCall,
   MergeEvent.print ("\nCurrent branch: " ++ currentBranch),
   MergeEvent.prompt "Would you like to merge your changes? [y/N]: ",
   MergeEvent.print "\nAvailable branches:"] ++
  branchListing (availableBranches branches currentBranch) ++
  [MergeEvent.prompt "\nEnter the branch name to merge into: ",
   MergeEvent.prompt "Enter merge commit message: "]

/-- A merge environment for an accepted, fully successful merge of "main"
into "dev" with a blank message prompt. -/
def mergeEnvAccept : MergeEnv :=
  { branchesResult := .ok ["main", "dev"], currentResult := .ok "main",
    answers := fun n => if n = 0 then "y" else if n = 1 then "dev" else "",
    checkoutOutput := fun _ => none, mergeOutput := fun _ _ => none }

/-- Subprocess and terminal actions performed by `handleCommit` (`main.go`). -/
inductive CommitEvent where
  | statusCall
  | print (s : String)
  | prompt (s : String)
  | commitCall (message : String)
deriving DecidableEq, Repr

/-- Outcomes of the external calls made by the commit step.
`hasChangesResult` is the result of `HasUncommittedChanges`, `statusResult`
the error of `ShowStatus` (`none` = success), `answers` the trimmed prompt
inputs in order, and `commitResult m` the error of the commit call. -/
structure CommitEnv where
  hasChangesResult : Except String Bool
  statusResult : Option String
  answers : Nat → String
  commitResult : String → Option String

/-- `handleCommit` (`main.go`): when uncommitted changes exist, show the
status, ask for confirmation (declining is a hard error), ask for a message
(an empty one is a hard error) and commit. -/
def handleCommit (env : CommitEnv) : List CommitEvent × Option String :=
  match env.hasChangesResult with
  | .error e => ([], some e)
  | .ok false => ([CommitEvent.print "No changes to commit"], none)
  | .ok true =>
    let tr1 := [CommitEvent.print "\nCurrent git status:", CommitEvent.statusCall]
    match env.statusResult with
    | some e => (tr1, some e)
    | none =>
      let tr2 := tr1 ++
        [CommitEvent.prompt "\nWould you like to commit these changes? [y/N]: "]
      if promptAccepted (env.answers 0) then
        let tr3 := tr2 ++ [CommitEvent.prompt "Enter commit message: "]
        let message := env.answers 1
        if message = "" then
          (tr3, some "commit message cannot be empty")
        else
          match env.commitResult message with
          | some e => (tr3 ++ [CommitEvent.commitCall message], some e)
          | none =>
            (tr3 ++ [CommitEvent.commitCall message,
              CommitEvent.print "Changes committed successfully"], none)
      else
        (tr2, some "changes must be committed before pushing. Operation cancelled")

/-- Outcomes of the external calls made by `SyncWithRemotes`
(`pkg/git/operations.go`).  `fetchOutput = some out` means the fetch-all
failed with combined output `out`; `currentResult` is the current-branch
query; `pullOutput r = some out` means the pull from remote `r` failed. -/
structure SyncEnv where
  fetchOutput : Option String
  currentResult : Except String String
  pullOutput : String → Option String

/-- `SyncWithRemotes` (`pkg/git/operations.go`): fetch-all, then the current
branch query, then a best-effort pull from each of the two fixed remotes;
pull failures are only logged.  Returns the pull-failure warnings and the
overall result (`none` = success, even when pulls failed). -/
def SyncWithRemotes (env : SyncEnv) : List String × Option String :=
  match env.fetchOutput with
  | some out => ([], some ("failed to fetch remotes: " ++ out))
  | none =>
    match env.currentResult with
    | .error e => ([], some e)
    | .ok _ =>
      ((["github", "gitlab"].filter (fun r => (env.pullOutput r).isSome)).map
        (fun r => "Warning: Could not pull from " ++ r), none)

/-- Steps of a non-setup run of `main` (`main.go`), as pipeline events. -/
inductive MainEvent where
  | gitCheckCall
  | repoCheckCall
  | syncCall
  | warn (s : String)
  | commitStep
  | mergeStep
  | pushStep
deriving DecidableEq, Repr

/-- The environment of one non-setup run of `main`: the two environment
checks and the environments of the four pipeline steps.  The configuration
is assumed loadable; a load failure inside `Push` would surface as a
push-step error of the same hard class. -/
structure MainEnv where
  gitInstalled : Bool
  isRepo : Bool
  syncEnv : SyncEnv
  commitEnv : CommitEnv
  mergeEnv : MergeEnv
  pushEnv : PushEnv
  config : Config
  forcePush : Bool

/-- `main` (`main.go`), non-setup path: check git and the repository, sync
(logging a warning on sync failure and continuing), then commit, merge and
push, aborting on the first error of those three steps. -/
def mainRun (env : MainEnv) : List MainEvent × Option String :=
  if env.gitInstalled = false then
    ([MainEvent.gitCheckCall], some "git is not installed")
  else if env.isRepo = false then
    ([MainEvent.gitCheckCall, MainEvent.repoCheckCall], some "Not in a git repository")
  else
    let sync := SyncWithRemotes env.syncEnv
    let syncWarns := sync.1.map MainEvent.warn ++
      (match sync.2 with
       | some e => [MainEvent.warn ("Warning: Failed to sync with remotes: " ++ e)]
       | none => [])
    let tr1 := [MainEvent.gitCheckCall, MainEvent.repoCheckCall, MainEvent.syncCall] ++
      syncWarns ++ [MainEvent.commitStep]
    match (handleCommit env.commitEnv).2 with
    | some e => (tr1, some e)
    | none =>
      let tr2 := tr1 ++ [MainEvent.mergeStep]
      match (handleMerge env.mergeEnv).2 with
      | some e => (tr2, some e)
      | none =>
        let tr3 := tr2 ++ [MainEvent.pushStep]
        match (Push env.pushEnv env.config env.forcePush).2 with
        | some e => (tr3, some e)
        | none => (tr3, none)

/-- A commit environment with no uncommitted changes. -/
def commitEnvNoChanges : CommitEnv :=
  { hasChangesResult := .ok false, statusResult := none,
    answers := fun _ => "", commitResult := fun _ => none }

/-- A fully configured record for concrete runs. -/
def configBoth : Config :=
  { githubUsername := "u", githubRepo := "r",
    gitlabUsername := "u", gitlabRepo := "r" }

/-- A main-run environment whose fetch-all fails and whose commit, merge and
push steps all succeed. -/
def syncEnvFetchFail : SyncEnv :=
  { fetchOutput := some "netfail", currentResult := .ok "main",
    pullOutput := fun _ => none }

def mainEnvSyncFail : MainEnv :=
  { gitInstalled := true, isRepo := true, syncEnv := syncEnvFetchFail,
    commitEnv := commitEnvNoChanges, mergeEnv := mergeEnvNoCandidates,
    pushEnv := allOkPushEnv, config := configBoth, forcePush := false }

/-- A commit environment with changes present in which the commit prompt is
declined. -/
def commitEnvDecline : CommitEnv :=
  { hasChangesResult := .ok true, statusResult := none,
    answers := fun _ => "n", commitResult := fun _ => none }

/-- A commit environment with changes present in which the commit prompt is
accepted and the entered commit message is empty. -/
def commitEnvEmptyMessage : CommitEnv :=
  { hasChangesResult := .ok true, statusResult := none,
    answers := fun n => if n = 0 then "y" else "", commitResult := fun _ => none }

/-- A main-run environment around `commitEnvDecline` with a fully successful
synchronizer. -/
def syncEnvAllOk : SyncEnv :=
  { fetchOutput := none, currentResult := .ok "main",
    pullOutput := fun _ => none }

def mainEnvCommitDecline : MainEnv :=
  { gitInstalled := true, isRepo := true, syncEnv := syncEnvAllOk,
    commitEnv := commitEnvDecline, mergeEnv := mergeEnvNoCandidates,
    pushEnv := allOkPushEnv, config := configBoth, forcePush := false }

/-- A main-run environment around `commitEnvEmptyMessage`. -/
def mainEnvCommitEmptyMessage : MainEnv :=
  { mainEnvCommitDecline with commitEnv := commitEnvEmptyMessage }

/-- The lowercase hexadecimal digits used by the JSON string encoder. -/
def hexDigit (n : Nat) : Char :=
  match n with
  | 0 => '0' | 1 => '1' | 2 => '2' | 3 => '3' | 4 => '4'
  | 5 => '5' | 6 => '6' | 7 => '7' | 8 => '8' | 9 => '9'
  | 10 => 'a' | 11 => 'b' | 12 => 'c' | 13 => 'd' | 14 => 'e' | _ => 'f'

/-- One character of Go's `encoding/json` string encoder (with HTML escaping
on, as `json.MarshalIndent` uses it): ASCII characters other than the quote,
backslash, `<`, `>`, `&` and controls are emitted literally; backslash,
quote, newline, carriage return and tab get two-character escapes; the
remaining controls and `<`, `>`, `&` become `\u00xx`; U+2028 and U+2029
become ` `/` `; every other character is emitted literally. -/
def escapeChar (c : Char) : List Char :=
  if c.toNat < 128 then
    if c = '"' then ['\\', '"']
    else if c = '\\' then ['\\', '\\']
    else if c = '\n' then ['\\', 'n']
    else if c = '\r' then ['\\', 'r']
    else if c = '\t' then ['\\', 't']
    else if c.toNat < 32 ∨ c = '<' ∨ c = '>' ∨ c = '&' then
      ['\\', 'u', '0', '0', hexDigit (c.toNat / 16), hexDigit (c.toNat % 16)]
    else [c]
  else if c.toNat = 8232 then ['\\', 'u', '2', '0', '2', '8']
  else if c.toNat = 8233 then ['\\', 'u', '2', '0', '2', '9']
  else [c]

/-- The JSON string encoding of a character sequence. -/
def escapeList : List Char → List Char
  | [] => []
  | c :: cs => escapeChar c ++ escapeList cs

/-- The member list of `json.MarshalIndent(config, "", "    ")` as written by
`SaveConfig`: after the opening brace, each of the four fields appears on its
own four-space-indented line as `"key": "escaped value"`, separated by
commas, followed by the closing brace on its own line. -/
def membersFrom (a b c d : String) : List Char :=
  '\n' :: ' ' :: ' ' :: ' ' :: ' ' :: '"' ::
  (escapeList "github_username".data ++ '"' :: ':' :: ' ' :: '"' ::
  (escapeList a.data ++ '"' :: ',' :: '\n' :: ' ' :: ' ' :: ' ' :: ' ' :: '"' ::
  (escapeList "github_repo".data ++ '"' :: ':' :: ' ' :: '"' ::
  (escapeList b.data ++ '"' :: ',' :: '\n' :: ' ' :: ' ' :: ' ' :: ' ' :: '"' ::
  (escapeList "gitlab_username".data ++ '"' :: ':' :: ' ' :: '"' ::
  (escapeList c.data ++ '"' :: ',' :: '\n' :: ' ' :: ' ' :: ' ' :: ' ' :: '"' ::
  (escapeList "gitlab_repo".data ++ '"' :: ':' :: ' ' :: '"' ::
  (escapeList d.data ++ '"' :: '\n' :: '\x7d' :: []))))))))

/-- The serialized configuration written by `SaveConfig`
(`pkg/git/operations.go`): the output of
`json.MarshalIndent(config, "", "    ")` on the four-field record. -/
def marshalConfig (c : Config) : String :=
  String.mk ('\x7b' ::
    membersFrom c.githubUsername c.githubRepo c.gitlabUsername c.gitlabRepo)

/-- The value of one hexadecimal digit, as read by the decoder's `getu4`. -/
def fromHexDigit (c : Char) : Option Nat :=
  if 48 ≤ c.toNat ∧ c.toNat ≤ 57 then some (c.toNat - 48)
  else if 97 ≤ c.toNat ∧ c.toNat ≤ 102 then some (c.toNat - 87)
  else if 65 ≤ c.toNat ∧ c.toNat ≤ 70 then some (c.toNat - 55)
  else none

/-- The two-character escapes accepted by the JSON decoder. -/
def unescapeChar (e : Char) : Option Char :=
  if e = '"' then some '"'
  else if e = '\\' then some '\\'
  else if e = '/' then some '/'
  else if e = 'b' then some (Char.ofNat 8)
  else if e = 'f' then some (Char.ofNat 12)
  else if e = 'n' then some '\n'
  else if e = 'r' then some '\r'
  else if e = 't' then some '\t'
  else none

/-- Go's JSON string decoding (`encoding/json` unquoting plus the scanner's
rejection of raw control characters), starting just after the opening quote:
returns the decoded content and the input remaining after the closing quote.
`\uXXXX` escapes are decoded with the surrogate-pair handling of the Go
decoder (an unpaired surrogate becomes U+FFFD without consuming the next
escape).  The fuel argument is the number of remaining decoding steps; each
step consumes at least one input character, so the wrapper below, which
passes the input length as fuel, computes the decoder's unbounded result. -/
def parseStringBodyF : Nat → List Char → Option (List Char × List Char)
  | 0, _ => none
  | fuel + 1, l =>
    match l with
    | [] => none
    | c :: cs =>
      if c = '"' then some ([], cs)
      else if c = '\\' then
        match cs with
        | [] => none
        | e :: cs1 =>
          if e = 'u' then
            match cs1 with
            | a :: b :: a2 :: b2 :: cs2 =>
              match fromHexDigit a, fromHexDigit b, fromHexDigit a2, fromHexDigit b2 with
              | some x, some y, some z, some w =>
                let rr := ((x * 16 + y) * 16 + z) * 16 + w
                if 55296 ≤ rr ∧ rr < 57344 then
                  match cs2 with
                  | s1 :: s2 :: a3 :: b3 :: a4 :: b4 :: cs3 =>
                    if s1 = '\\' ∧ s2 = 'u' then
                      match fromHexDigit a3, fromHexDigit b3, fromHexDigit a4, fromHexDigit b4 with
                      | some x2, some y2, some z2, some w2 =>
                        let rr2 := ((x2 * 16 + y2) * 16 + z2) * 16 + w2
                        if rr < 56320 ∧ 56320 ≤ rr2 ∧ rr2 < 57344 then
                          (parseStringBodyF fuel cs3).map
                            (fun p =>
                              (Char.ofNat (65536 + (rr - 55296) * 1024 + (rr2 - 56320)) :: p.1,
                                p.2))
                        else
                          (parseStringBodyF fuel (s1 :: s2 :: a3 :: b3 :: a4 :: b4 :: cs3)).map
                            (fun p => (Char.ofNat 65533 :: p.1, p.2))
                      | _, _, _, _ =>
                        (parseStringBodyF fuel (s1 :: s2 :: a3 :: b3 :: a4 :: b4 :: cs3)).map
                          (fun p => (Char.ofNat 65533 :: p.1, p.2))
                    else
                      (parseStringBodyF fuel (s1 :: s2 :: a3 :: b3 :: a4 :: b4 :: cs3)).map
                        (fun p => (Char.ofNat 65533 :: p.1, p.2))
                  | other => (parseStringBodyF fuel other).map
                      (fun p => (Char.ofNat 65533 :: p.1, p.2))
                else
                  (parseStringBodyF fuel cs2).map (fun p => (Char.ofNat rr :: p.1, p.2))
              | _, _, _, _ => none
            | _ => none
          else
            match unescapeChar e with
            | some u => (parseStringBodyF fuel cs1).map (fun p => (u :: p.1, p.2))
            | none => none
      else if c.toNat < 32 then none
      else (parseStringBodyF fuel cs).map (fun p => (c :: p.1, p.2))

def parseStringBody (l : List Char) : Option (List Char × List Char) :=
  parseStringBodyF l.length l

/-- JSON whitespace skipping (space, tab, newline, carriage return). -/
def skipWs : List Char → List Char
  | [] => []
  | c :: cs => if c = ' ' ∨ c = '\t' ∨ c = '\n' ∨ c = '\r' then skipWs cs else c :: cs

/-- The object-member loop of the JSON decoder for flat objects with string
values (the only shape the tool stores): repeatedly parse `"key": "value"`
members separated by commas until the closing brace, returning the key/value
pairs and the remaining input.  The fuel argument only bounds the number of
members; it is instantiated above the input length, so it never cuts a
parse short. -/
def parseMembersLoop : Nat → List Char → Option (List (List Char × List Char) × List Char)
  | 0, _ => none
  | fuel + 1, l =>
    match skipWs l with
    | '"' :: r1 =>
      match parseStringBody r1 with
      | none => none
      | some (key, r2) =>
        match skipWs r2 with
        | ':' :: r3 =>
          match skipWs r3 with
          | '"' :: r4 =>
            match parseStringBody r4 with
            | none => none
            | some (value, r5) =>
              match skipWs r5 with
              | ',' :: r6 =>
                match parseMembersLoop fuel r6 with
                | none => none
                | some (rest, r7) => some ((key, value) :: rest, r7)
              | '\x7d' :: r6 => some ([(key, value)], r6)
              | _ => none
          | _ => none
        | _ => none
    | _ => none

/-- The zero value the decoder fills in (`&Config{}` in `LoadConfig`). -/
def zeroConfig : Config :=
  { githubUsername := "", githubRepo := "", gitlabUsername := "", gitlabRepo := "" }

/-- Field assignment performed by the decoder: a member sets the struct field
whose JSON tag equals the key; unknown keys are ignored. -/
def applyMember (c : Config) (kv : List Char × List Char) : Config :=
  if kv.1 = "github_username".data then { c with githubUsername := String.mk kv.2 }
  else if kv.1 = "github_repo".data then { c with githubRepo := String.mk kv.2 }
  else if kv.1 = "gitlab_username".data then { c with gitlabUsername := String.mk kv.2 }
  else if kv.1 = "gitlab_repo".data then { c with gitlabRepo := String.mk kv.2 }
  else c

/-- `json.Unmarshal` into `&Config{}` (`LoadConfig`), modelled for the flat
string-field objects the tool stores: a brace-delimited member list (or the
empty object) followed only by whitespace. -/
def unmarshalConfig (s : String) : Option Config :=
  match skipWs s.data with
  | '\x7b' :: r1 =>
    match skipWs r1 with
    | '\x7d' :: r2 => if skipWs r2 = [] then some zeroConfig else none
    | _ =>
      match parseMembersLoop (s.data.length + 1) r1 with
      | none => none
      | some (members, r2) =>
        if skipWs r2 = [] then some (members.foldl applyMember zeroConfig) else none
  | _ => none

/-- The per-user configuration file path (`GetConfigDir` joined with
`config.json`), abstracted to one fixed name. -/
def configFilePath : String := "git-multi-push/config.json"

/-- `SaveConfig` (`pkg/git/operations.go`): serialize the record and write
it to the configuration file, replacing any previous content.  The file
system is an association list with the newest write first. -/
def SaveConfig (fs : List (String × String)) (c : Config) : List (String × String) :=
  (configFilePath, marshalConfig c) :: fs

/-- `LoadConfig` (`pkg/git/operations.go`): read the configuration file
(missing file: "config not found"), then decode it (decode failure:
"invalid config format"). -/
def LoadConfig (fs : List (String × String)) : Except String Config :=
  match fs.lookup configFilePath with
  | none => .error "config not found, run setup first"
  | some data =>
    match unmarshalConfig data with
    | none => .error "invalid config format"
    | some c => .ok c

theorem startsWithL_append (p t : List Char) : startsWithL p (p ++ t) = true := by
  induction p with
  | nil => rfl
  | cons c cs ih => simp [startsWithL, ih]

theorem containsL_of_startsWithL (pat l : List Char) (h : startsWithL pat l = true) :
    containsL pat l = true := by
  cases l with
  | nil => exact h
  | cons c cs => simp [containsL, h]

theorem containsL_append_left (pat x l : List Char) (h : containsL pat l = true) :
    containsL pat (x ++ l) = true := by
  induction x with
  | nil => exact h
  | cons c cs ih => simp [containsL, ih]

theorem containsL_sandwich (pat x y : List Char) :
    containsL pat (x ++ (pat ++ y)) = true :=
  containsL_append_left pat x _
    (containsL_of_startsWithL pat _ (startsWithL_append pat y))

theorem strContains_of_parts (x p y : String) :
    strContains (x ++ p ++ y) p = true := by
  have h := containsL_sandwich p.data x.data y.data
  simpa [strContains, String.data_append, List.append_assoc] using h

theorem strContains_parts5 (a p c d e : String) :
    strContains (a ++ p ++ c ++ d ++ e) p = true := by
  have h := containsL_sandwich p.data a.data (c.data ++ (d.data ++ e.data))
  simpa [strContains, String.data_append, List.append_assoc] using h

theorem strContains_parts4end (a b c p : String) :
    strContains (a ++ b ++ c ++ p) p = true := by
  have h := containsL_sandwich p.data (a.data ++ (b.data ++ c.data)) []
  simpa [strContains, String.data_append, List.append_assoc] using h

/-- C2: push-failure classification.  If the combined output of a failed push
contains "protected branch", the protected-branch remediation message is
returned and it contains the remote's name; if it contains "fetch first"
(and not "protected branch"), the pull-or-force remediation message is
returned; if it contains neither, the error is exactly the raw output
prefixed with the failure header, so the raw output is surfaced unchanged. -/
theorem C2_push_failure_classification (remote out : String) :
    (strContains out "protected branch" = true →
      pushFailureError remote out = protectedBranchMessage remote out ∧
      strContains (pushFailureError remote out) remote = true) ∧
    (strContains out "fetch first" = true → strContains out "protected branch" = false →
      pushFailureError remote out = fetchFirstMessage remote out) ∧
    (strContains out "protected branch" = false → strContains out "fetch first" = false →
      pushFailureError remote out = "failed to push to " ++ remote ++ ": " ++ out ∧
      strContains (pushFailureError remote out) out = true) := by
  refine ⟨fun h1 => ?_, fun h1 h2 => ?_, fun h1 h2 => ?_⟩
  · have e : pushFailureError remote out = protectedBranchMessage remote out := by
      simp [pushFailureError, h1]
    refine ⟨e, ?_⟩
    rw [e]
    exact strContains_parts5 "failed to push to " remote ": " out protectedBranchTail
  · simp [pushFailureError, h1, h2]
  · have e : pushFailureError remote out = "failed to push to " ++ remote ++ ": " ++ out := by
      simp [pushFailureError, h1, h2]
    refine ⟨e, ?_⟩
    rw [e]
    exact strContains_parts4end "failed to push to " remote ": " out

/-- Witness for C2 at a concrete failing output. -/
theorem C2_push_failure_classification_witness :
    pushFailureError "gitlab" "remote: protected branch xyz" =
      protectedBranchMessage "gitlab" "remote: protected branch xyz" ∧
    strContains (pushFailureError "gitlab" "remote: protected branch xyz") "gitlab" = true :=
  (C2_push_failure_classification "gitlab" "remote: protected branch xyz").1 (by decide)

theorem pushRemote_mem_okEvents (force : Bool) (l : List (String × String))
    (nm : String) (f : Bool) (h : PushEvent.pushRemote nm f ∈ okEvents force l) :
    ∃ p ∈ l, nm = p.1 ∧ f = force := by
  induction l with
  | nil => simp [okEvents] at h
  | cons p ps ih =>
    obtain ⟨name, url⟩ := p
    simp only [okEvents, List.mem_cons] at h
    rcases h with h | h | h
    · exact absurd h (by simp)
    · refine ⟨(name, url), by simp, ?_⟩
      cases h
      exact ⟨rfl, rfl⟩
    · obtain ⟨q, hq, he⟩ := ih h
      exact ⟨q, List.mem_cons_of_mem _ hq, he⟩

/-- C4: the push loop stops at the first failure.  If every remote before `r`
in iteration order succeeds (registration and push), `r`'s registration
succeeds, and `r`'s push fails with combined output `out`, then the run
returns exactly the classified error for `r`, the trace consists of the
successful events for the earlier remotes followed by `r`'s registration and
failed push — so no push (and no other subprocess call, in particular no
rollback) is issued for any remaining remote — and every push event in the
trace belongs to an earlier (successful, not rolled back) remote or to `r`
itself. -/
theorem C4_first_push_error_stops (env : PushEnv) (force : Bool)
    (pre : List (String × String)) (r : String × String)
    (rest : List (String × String)) (out : String)
    (hpre : ∀ p ∈ pre, env.addResult p.1 p.2 = none ∧ env.pushOutput p.1 force = none)
    (hadd : env.addResult r.1 r.2 = none)
    (hfail : env.pushOutput r.1 force = some out) :
    pushLoop env force (pre ++ r :: rest) =
      (okEvents force pre ++ [PushEvent.addRemote r.1 r.2, PushEvent.pushRemote r.1 force],
        some (pushFailureError r.1 out)) ∧
    ∀ nm f, PushEvent.pushRemote nm f ∈ (pushLoop env force (pre ++ r :: rest)).1 →
      (∃ p ∈ pre, nm = p.1 ∧ f = force) ∨ (nm = r.1 ∧ f = force) := by
  have htrace : pushLoop env force (pre ++ r :: rest) =
      (okEvents force pre ++ [PushEvent.addRemote r.1 r.2, PushEvent.pushRemote r.1 force],
        some (pushFailureError r.1 out)) := by
    induction pre with
    | nil =>
      obtain ⟨rn, ru⟩ := r
      simp [pushLoop, okEvents, hadd, pushToRemote, hfail]
    | cons p ps ih =>
      obtain ⟨h1, h2⟩ := hpre p (List.mem_cons_self ..)
      obtain ⟨pn, pu⟩ := p
      have ih2 := ih (fun q hq => hpre q (List.mem_cons_of_mem _ hq))
      simp only [List.cons_append, pushLoop, h1, pushToRemote, h2, okEvents,
        List.append_eq, ih2]
  refine ⟨htrace, fun nm f hmem => ?_⟩
  rw [htrace] at hmem
  simp only [List.mem_append, List.mem_cons] at hmem
  rcases hmem with h | h | h | h
  · exact Or.inl (pushRemote_mem_okEvents force pre nm f h)
  · exact absurd h (by simp)
  · cases h
    exact Or.inr ⟨rfl, rfl⟩
  · simp at h

/-- Witness for C4: a concrete run in which the github push succeeds and the
gitlab push fails with output "boom"; the loop returns the classified gitlab
error after pushing to github. -/
theorem C4_first_push_error_stops_witness :
    pushLoop
      ⟨fun _ _ => none, fun n _ => if n = "gitlab" then some "boom" else none⟩ false
      ([("github", "git@github.com:user/repo.git")] ++
        ("gitlab", "git@gitlab.com:user/repo.git") :: []) =
      (okEvents false [("github", "git@github.com:user/repo.git")] ++
        [PushEvent.addRemote "gitlab" "git@gitlab.com:user/repo.git",
         PushEvent.pushRemote "gitlab" false],
        some (pushFailureError "gitlab" "boom")) :=
  (C4_first_push_error_stops
    ⟨fun _ _ => none, fun n _ => if n = "gitlab" then some "boom" else none⟩ false
    [("github", "git@github.com:user/repo.git")]
    ("gitlab", "git@gitlab.com:user/repo.git") [] "boom"
    (by intro p hp; simp at hp; subst hp; exact ⟨rfl, by decide⟩)
    rfl (by decide)).1

/-- C1 (failing-input evaluation): with the gitlab username and repository
fields empty, `Push` still derives the degenerate URL
`git@gitlab.com:/.git` for the gitlab remote, still registers that remote,
and still pushes to it — the remote is not skipped, contradicting the claim
that a remote with empty username/repo fields yields no push target. -/
theorem C1_empty_fields_remote_not_skipped :
    remoteUrls configGitlabUnset =
      [("github", "git@github.com:user/repo.git"),
       ("gitlab", "git@gitlab.com:/.git")] ∧
    PushEvent.addRemote "gitlab" "git@gitlab.com:/.git" ∈
      (Push allOkPushEnv configGitlabUnset false).1 ∧
    PushEvent.pushRemote "gitlab" false ∈ (Push allOkPushEnv configGitlabUnset false).1 ∧
    (Push allOkPushEnv configGitlabUnset false).2 = none := by
  refine ⟨rfl, ?_, ?_, rfl⟩ <;> decide

theorem checkout_not_mem_branchListing (avail : List String) (b : String) :
    MergeEvent.checkout b ∉ branchListing avail := by
  simp [branchListing]

theorem mergeCall_not_mem_branchListing (avail : List String) (b m : String) :
    MergeEvent.mergeCall b m ∉ branchListing avail := by
  simp [branchListing]

/-- C3: merge-target validation.  Whenever the candidate list is nonempty and
the merge prompt is accepted, supplying the current branch's name, or any
name outside the candidate list, as the target makes `handleMerge` fail with
the branch-not-found error, and no `git checkout` and no `git merge` call
appears in the trace. -/
theorem C3_merge_target_rejected (env : MergeEnv) (branches : List String)
    (currentBranch target : String)
    (hb : env.branchesResult = .ok branches)
    (hc : env.currentResult = .ok currentBranch)
    (hne : (availableBranches branches currentBranch).isEmpty = false)
    (hacc : promptAccepted (env.answers 0) = true)
    (htg : env.answers 1 = target)
    (hbad : target = currentBranch ∨ target ∉ availableBranches branches currentBranch) :
    (handleMerge env).2 = some ("branch '" ++ target ++ "' not found") ∧
    (∀ b, MergeEvent.checkout b ∉ (handleMerge env).1) ∧
    (∀ b m, MergeEvent.mergeCall b m ∉ (handleMerge env).1) := by
  have hnotmem : target ∉ availableBranches branches currentBranch := by
    rcases hbad with h | h
    · subst h
      intro hmem
      rw [availableBranches, List.mem_filter] at hmem
      simp at hmem
    · exact h
  have hcont : (availableBranches branches currentBranch).contains target = false := by
    simpa using hnotmem
  rw [handleMerge, hb, hc]
  simp [hne, hacc, htg, hnotmem, branchListing]

theorem strContains_suffix (x p : String) : strContains (x ++ p) p = true := by
  have h := containsL_sandwich p.data x.data []
  simpa [strContains, String.data_append] using h

/-- Witness for C3: the concrete bad target "feature" is rejected before any
checkout or merge call. -/
theorem C3_merge_target_rejected_witness :
    (handleMerge mergeEnvBadTarget).2 = some ("branch '" ++ "feature" ++ "' not found") ∧
    (∀ b, MergeEvent.checkout b ∉ (handleMerge mergeEnvBadTarget).1) ∧
    (∀ b m, MergeEvent.mergeCall b m ∉ (handleMerge mergeEnvBadTarget).1) :=
  C3_merge_target_rejected mergeEnvBadTarget ["main", "dev"] "main" "feature"
    rfl rfl (by decide) (by decide) rfl (Or.inr (by decide))

/-- Counterexample to C5 as stated: when the candidate list is empty the step
does return success and performs no checkout or merge, but it is not free of
output — it prints the informational message "No other branches available for
merging." (after the branch-listing subprocess queries). -/
theorem C5_counterexample_prints_message :
    (handleMerge mergeEnvNoCandidates).2 = none ∧
    MergeEvent.print "\nNo other branches available for merging." ∈
      (handleMerge mergeEnvNoCandidates).1 := by
  decide

/-- C5 (amended): with an empty candidate list the merge step succeeds after
only the two branch-listing queries and one informational print — no prompt,
no checkout, no merge; with candidates present and the merge prompt declined
it succeeds after only the listing queries, one print and the yes/no prompt —
again with no checkout and no merge. -/
theorem C5_skip_and_decline (env : MergeEnv) (branches : List String)
    (currentBranch : String)
    (hb : env.branchesResult = .ok branches)
    (hc : env.currentResult = .ok currentBranch) :
    ((availableBranches branches currentBranch).isEmpty = true →
      handleMerge env =
        ([MergeEvent.listBranchesCall, MergeEvent.currentBranchCall,
          MergeEvent.print "\nNo other branches available for merging."], none)) ∧
    ((availableBranches branches currentBranch).isEmpty = false →
      promptAccepted (env.answers 0) = false →
      handleMerge env =
        ([MergeEvent.listBranchesCall, MergeEvent.currentBranchCall,
          MergeEvent.print ("\nCurrent branch: " ++ currentBranch),
          MergeEvent.prompt "Would you like to merge your changes? [y/N]: "], none)) := by
  constructor
  · intro hemp
    rw [handleMerge, hb, hc]
    simp [hemp]
  · intro hne hdecl
    rw [handleMerge, hb, hc]
    simp [hne, hdecl]

/-- Witness for C5 at the two concrete environments. -/
theorem C5_skip_and_decline_witness :
    handleMerge mergeEnvNoCandidates =
      ([MergeEvent.listBranchesCall, MergeEvent.currentBranchCall,
        MergeEvent.print "\nNo other branches available for merging."], none) ∧
    handleMerge mergeEnvDecline =
      ([MergeEvent.listBranchesCall, MergeEvent.currentBranchCall,
        MergeEvent.print ("\nCurrent branch: " ++ "main"),
        MergeEvent.prompt "Would you like to merge your changes? [y/N]: "], none) :=
  ⟨(C5_skip_and_decline mergeEnvNoCandidates ["main"] "main" rfl rfl).1 (by decide),
   (C5_skip_and_decline mergeEnvDecline ["main", "dev"] "main" rfl rfl).2
     (by decide) (by decide)⟩

/-- C7: an accepted merge with a valid target and a blank message prompt uses
the generated message "Merge branch 'X' into Y"; the merge is executed by a
`git checkout` of the target followed by a `git merge` of the source, in that
order; a checkout failure aborts before the merge call and the error carries
the tool's raw output, and a merge failure's error likewise carries the raw
output. -/
theorem C7_merge_checkout_then_merge (env : MergeEnv) (branches : List String)
    (currentBranch target : String)
    (hb : env.branchesResult = .ok branches)
    (hc : env.currentResult = .ok currentBranch)
    (hne : (availableBranches branches currentBranch).isEmpty = false)
    (hacc : promptAccepted (env.answers 0) = true)
    (htg : env.answers 1 = target)
    (hmem : target ∈ availableBranches branches currentBranch)
    (hblank : env.answers 2 = "") :
    (env.checkoutOutput target = none →
      env.mergeOutput currentBranch
        ("Merge branch '" ++ currentBranch ++ "' into " ++ target) = none →
      handleMerge env =
        (mergeAcceptPrefix branches currentBranch ++
          [MergeEvent.checkout target,
           MergeEvent.mergeCall currentBranch
             ("Merge branch '" ++ currentBranch ++ "' into " ++ target),
           MergeEvent.print ("Successfully merged '" ++ currentBranch ++
             "' into '" ++ target ++ "'")],
          none)) ∧
    (∀ out, env.checkoutOutput target = some out →
      handleMerge env =
        (mergeAcceptPrefix branches currentBranch ++ [MergeEvent.checkout target],
          some ("failed to checkout " ++ target ++ ": " ++ out)) ∧
      strContains ("failed to checkout " ++ target ++ ": " ++ out) out = true) ∧
    (∀ out, env.checkoutOutput target = none →
      env.mergeOutput currentBranch
        ("Merge branch '" ++ currentBranch ++ "' into " ++ target) = some out →
      handleMerge env =
        (mergeAcceptPrefix branches currentBranch ++
          [MergeEvent.checkout target,
           MergeEvent.mergeCall currentBranch
             ("Merge branch '" ++ currentBranch ++ "' into " ++ target)],
          some ("failed to merge " ++ currentBranch ++ " into " ++ target ++ ": " ++ out)) ∧
      strContains ("failed to merge " ++ currentBranch ++ " into " ++ target ++ ": " ++ out)
        out = true) := by
  have hneq : ¬(currentBranch = target) := by
    rw [availableBranches, List.mem_filter] at hmem
    have h2 := hmem.2
    simp only [bne_iff_ne, ne_eq] at h2
    exact fun h => h2 h.symm
  have hvm : ValidateMerge currentBranch target = none := by
    rw [ValidateMerge, if_neg hneq]
  refine ⟨fun hchk hmrg => ?_, fun out hchk => ⟨?_, ?_⟩, fun out hchk hmrg => ⟨?_, ?_⟩⟩
  · rw [handleMerge, hb, hc]
    simp [hne, hacc, htg, hmem, hblank, MergeBranch, hvm, hchk, hmrg,
      mergeAcceptPrefix]
  · rw [handleMerge, hb, hc]
    simp [hne, hacc, htg, hmem, hblank, MergeBranch, hvm, hchk, mergeAcceptPrefix]
  · exact strContains_suffix ("failed to checkout " ++ target ++ ": ") out
  · rw [handleMerge, hb, hc]
    simp [hne, hacc, htg, hmem, hblank, MergeBranch, hvm, hchk, hmrg,
      mergeAcceptPrefix]
  · exact strContains_suffix ("failed to merge " ++ currentBranch ++ " into " ++
      target ++ ": ") out

/-- Witness for C7: the successful concrete run checks out "dev", then merges
"main" with the generated message. -/
theorem C7_merge_checkout_then_merge_witness :
    handleMerge mergeEnvAccept =
      (mergeAcceptPrefix ["main", "dev"] "main" ++
        [MergeEvent.checkout "dev",
         MergeEvent.mergeCall "main" ("Merge branch '" ++ "main" ++ "' into " ++ "dev"),
         MergeEvent.print ("Successfully merged '" ++ "main" ++ "' into '" ++ "dev" ++ "'")],
        none) :=
  (C7_merge_checkout_then_merge mergeEnvAccept ["main", "dev"] "main" "dev"
    rfl rfl (by decide) (by decide) rfl (by decide) rfl).1 rfl rfl

/-- C8: failures of the remote synchronizer are soft.  Once the environment
checks pass, the run always reaches the commit step regardless of the sync
outcome; a failing fetch-all or current-branch query is logged as the sync
warning; a failing pull on an individual remote is logged as that remote's
pull warning (and does not even fail the synchronizer); and the run aborts
exactly when the commit, merge or push step fails. -/
theorem C8_sync_failures_are_soft (env : MainEnv)
    (hg : env.gitInstalled = true) (hr : env.isRepo = true) :
    MainEvent.commitStep ∈ (mainRun env).1 ∧
    (∀ e, (SyncWithRemotes env.syncEnv).2 = some e →
      MainEvent.warn ("Warning: Failed to sync with remotes: " ++ e) ∈ (mainRun env).1) ∧
    (∀ r b, env.syncEnv.fetchOutput = none →
      env.syncEnv.currentResult = .ok b →
      r ∈ (["github", "gitlab"] : List String) →
      (env.syncEnv.pullOutput r).isSome = true →
      MainEvent.warn ("Warning: Could not pull from " ++ r) ∈ (mainRun env).1) ∧
    ((mainRun env).2.isSome ↔
      ((handleCommit env.commitEnv).2.isSome ∨ (handleMerge env.mergeEnv).2.isSome ∨
        (Push env.pushEnv env.config env.forcePush).2.isSome)) := by
  refine ⟨?_, ?_, ?_, ?_⟩
  · rcases h1 : (handleCommit env.commitEnv).2 with _ | e
    · rcases h2 : (handleMerge env.mergeEnv).2 with _ | e
      · rcases h3 : (Push env.pushEnv env.config env.forcePush).2 with _ | e <;>
          simp [mainRun, hg, hr, h1, h2, h3]
      · simp [mainRun, hg, hr, h1, h2]
    · simp [mainRun, hg, hr, h1]
  · intro e hs
    rcases h1 : (handleCommit env.commitEnv).2 with _ | e1
    · rcases h2 : (handleMerge env.mergeEnv).2 with _ | e2
      · rcases h3 : (Push env.pushEnv env.config env.forcePush).2 with _ | e3 <;>
          simp [mainRun, hg, hr, h1, h2, h3, hs]
      · simp [mainRun, hg, hr, h1, h2, hs]
    · simp [mainRun, hg, hr, h1, hs]
  · intro r b hf hb hrm hp
    have hw : ("Warning: Could not pull from " ++ r) ∈
        (SyncWithRemotes env.syncEnv).1 := by
      rw [SyncWithRemotes, hf, hb]
      exact List.mem_map_of_mem _ (List.mem_filter.2 ⟨hrm, hp⟩)
    rcases h1 : (handleCommit env.commitEnv).2 with _ | e1
    · rcases h2 : (handleMerge env.mergeEnv).2 with _ | e2
      · rcases h3 : (Push env.pushEnv env.config env.forcePush).2 with _ | e3 <;>
          simp [mainRun, hg, hr, h1, h2, h3, List.mem_map_of_mem _ hw]
      · simp [mainRun, hg, hr, h1, h2, List.mem_map_of_mem _ hw]
    · simp [mainRun, hg, hr, h1, List.mem_map_of_mem _ hw]
  · rcases h1 : (handleCommit env.commitEnv).2 with _ | e1
    · rcases h2 : (handleMerge env.mergeEnv).2 with _ | e2
      · rcases h3 : (Push env.pushEnv env.config env.forcePush).2 with _ | e3 <;>
          simp [mainRun, hg, hr, h1, h2, h3]
      · simp [mainRun, hg, hr, h1, h2]
    · simp [mainRun, hg, hr, h1]

/-- Witness for C8: with a failing fetch-all and successful commit, merge
and push steps, the run still reaches the commit step, logs the sync
warning, and does not abort. -/
theorem C8_sync_failures_are_soft_witness :
    MainEvent.commitStep ∈ (mainRun mainEnvSyncFail).1 ∧
    MainEvent.warn ("Warning: Failed to sync with remotes: " ++
      ("failed to fetch remotes: " ++ "netfail")) ∈ (mainRun mainEnvSyncFail).1 ∧
    ((mainRun mainEnvSyncFail).2.isSome ↔
      ((handleCommit mainEnvSyncFail.commitEnv).2.isSome ∨
        (handleMerge mainEnvSyncFail.mergeEnv).2.isSome ∨
        (Push mainEnvSyncFail.pushEnv mainEnvSyncFail.config
          mainEnvSyncFail.forcePush).2.isSome)) :=
  have h := C8_sync_failures_are_soft mainEnvSyncFail rfl rfl
  ⟨h.1, h.2.1 ("failed to fetch remotes: " ++ "netfail") rfl, h.2.2.2⟩

/-- C6: with uncommitted changes present and the status call succeeding,
declining the commit prompt makes `handleCommit` fail with the
must-commit-before-pushing error without any commit call, and that failure
aborts the whole run before the merge step and the push step; accepting the
prompt and then entering an empty commit message fails with the
empty-message error, again without any commit call. -/
theorem C6_commit_decline_and_empty_message (env : MainEnv)
    (hg : env.gitInstalled = true) (hr : env.isRepo = true)
    (hch : env.commitEnv.hasChangesResult = .ok true)
    (hst : env.commitEnv.statusResult = none) :
    (promptAccepted (env.commitEnv.answers 0) = false →
      (handleCommit env.commitEnv).2 =
        some "changes must be committed before pushing. Operation cancelled" ∧
      (∀ m, CommitEvent.commitCall m ∉ (handleCommit env.commitEnv).1) ∧
      (mainRun env).2 =
        some "changes must be committed before pushing. Operation cancelled" ∧
      MainEvent.mergeStep ∉ (mainRun env).1 ∧
      MainEvent.pushStep ∉ (mainRun env).1) ∧
    (promptAccepted (env.commitEnv.answers 0) = true →
      env.commitEnv.answers 1 = "" →
      (handleCommit env.commitEnv).2 = some "commit message cannot be empty" ∧
      (∀ m, CommitEvent.commitCall m ∉ (handleCommit env.commitEnv).1)) := by
  constructor
  · intro hdecl
    have hhc : handleCommit env.commitEnv =
        ([CommitEvent.print "\nCurrent git status:", CommitEvent.statusCall,
          CommitEvent.prompt "\nWould you like to commit these changes? [y/N]: "],
          some "changes must be committed before pushing. Operation cancelled") := by
      rw [handleCommit, hch, hst]
      simp [hdecl]
    refine ⟨by rw [hhc], fun m => by rw [hhc]; simp, ?_, ?_, ?_⟩
    · simp [mainRun, hg, hr, hhc]
    · rcases hs : (SyncWithRemotes env.syncEnv).2 with _ | e <;>
        simp [mainRun, hg, hr, hhc, hs]
    · rcases hs : (SyncWithRemotes env.syncEnv).2 with _ | e <;>
        simp [mainRun, hg, hr, hhc, hs]
  · intro hacc hempty
    have hhc : handleCommit env.commitEnv =
        ([CommitEvent.print "\nCurrent git status:", CommitEvent.statusCall,
          CommitEvent.prompt "\nWould you like to commit these changes? [y/N]: ",
          CommitEvent.prompt "Enter commit message: "],
          some "commit message cannot be empty") := by
      rw [handleCommit, hch, hst]
      simp [hacc, hempty]
    exact ⟨by rw [hhc], fun m => by rw [hhc]; simp⟩

/-- Witness for C6 at the two concrete environments: a declined prompt and
an accepted prompt with an empty message. -/
theorem C6_commit_decline_and_empty_message_witness :
    ((handleCommit mainEnvCommitDecline.commitEnv).2 =
        some "changes must be committed before pushing. Operation cancelled" ∧
      (mainRun mainEnvCommitDecline).2 =
        some "changes must be committed before pushing. Operation cancelled" ∧
      MainEvent.mergeStep ∉ (mainRun mainEnvCommitDecline).1 ∧
      MainEvent.pushStep ∉ (mainRun mainEnvCommitDecline).1) ∧
    ((handleCommit mainEnvCommitEmptyMessage.commitEnv).2 =
        some "commit message cannot be empty" ∧
      (∀ m, CommitEvent.commitCall m ∉
        (handleCommit mainEnvCommitEmptyMessage.commitEnv).1)) :=
  have h1 := (C6_commit_decline_and_empty_message mainEnvCommitDecline
    rfl rfl rfl rfl).1 (by decide)
  have h2 := (C6_commit_decline_and_empty_message mainEnvCommitEmptyMessage
    rfl rfl rfl rfl).2 (by decide) rfl
  ⟨⟨h1.1, h1.2.2.1, h1.2.2.2.1, h1.2.2.2.2⟩, ⟨h2.1, h2.2⟩⟩

theorem char_toNat_ofNat_valid (n : Nat) (hv : n.isValidChar) :
    (Char.ofNat n).toNat = n := by
  simp [Char.ofNat, hv, Char.ofNatAux, Char.toNat, UInt32.toNat]

theorem char_eq_of_toNat_eq (c : Char) (n : Nat) (h : c.toNat = n) :
    c = Char.ofNat n := by
  subst h
  exact (Char.ofNat_toNat c).symm

theorem char_toLower_eq_y (c : Char) : c.toLower = 'y' ↔ c = 'y' ∨ c = 'Y' := by
  constructor
  · intro h
    unfold Char.toLower at h
    by_cases hc : c.toNat ≥ 65 ∧ c.toNat ≤ 90
    · rw [if_pos hc] at h
      right
      have h1 := congrArg Char.toNat h
      rw [char_toNat_ofNat_valid _ (Or.inl (by omega))] at h1
      have hy : ('y' : Char).toNat = 121 := by decide
      rw [hy] at h1
      have h3 : c.toNat = 89 := by omega
      have h4 := char_eq_of_toNat_eq c 89 h3
      rw [h4]
    · rw [if_neg hc] at h
      exact Or.inl h
  · rintro (rfl | rfl) <;> decide

/-- C10: the yes/no prompts of `handleCommit` and `handleMerge` accept an
input exactly when lowercasing it yields the single character "y" — that is,
exactly the inputs "y" and "Y"; every other input (such as "yes", "Yes" or
the empty string) declines. -/
theorem C10_prompt_accepts_only_y (s : String) :
    promptAccepted s = true ↔ s = "y" ∨ s = "Y" := by
  constructor
  · intro h
    rw [promptAccepted, beq_iff_eq] at h
    obtain ⟨data⟩ := s
    have hd : data.map Char.toLower = ['y'] := congrArg String.data h
    cases data with
    | nil => exact absurd hd (by decide)
    | cons c cs =>
      cases cs with
      | nil =>
        have hc : c.toLower = 'y' := by simpa using hd
        rcases (char_toLower_eq_y c).1 hc with rfl | rfl
        · exact Or.inl rfl
        · exact Or.inr rfl
      | cons d ds =>
        simp at hd
  · rintro (rfl | rfl) <;> decide

theorem fromHexDigit_hexDigit (n : Nat) (h : n < 16) :
    fromHexDigit (hexDigit n) = some n := by
  interval_cases n <;> decide

theorem escapeChar_length_pos (c : Char) : 1 ≤ (escapeChar c).length := by
  rw [escapeChar]
  split_ifs <;> simp

theorem escapeList_length_ge (s : List Char) : s.length ≤ (escapeList s).length := by
  induction s with
  | nil => simp [escapeList]
  | cons c cs ih =>
    rw [escapeList]
    have := escapeChar_length_pos c
    simp only [List.length_append, List.length_cons]
    omega

theorem parseStringBodyF_escapeList (s : List Char) : ∀ f r,
    parseStringBodyF (s.length + f + 1) (escapeList s ++ ('"' :: r)) = some (s, r) := by
  induction s with
  | nil =>
    intro f r
    simp [escapeList, parseStringBodyF]
  | cons c cs ih =>
    intro f r
    rw [escapeList, List.append_assoc]
    have heq : cs.length + 1 + f = cs.length + f + 1 := by omega
    by_cases hlt : c.toNat < 128
    · by_cases h1 : c = '"'
      · subst h1
        rw [show escapeChar '"' = ['\\', '"'] from rfl]
        simp only [List.cons_append, List.nil_append]
        simp [parseStringBodyF, unescapeChar]
        rw [heq]
        exact ih f r
      · by_cases h2 : c = '\\'
        · subst h2
          rw [show escapeChar '\\' = ['\\', '\\'] from rfl]
          simp only [List.cons_append, List.nil_append]
          simp [parseStringBodyF, unescapeChar]
          rw [heq]
          exact ih f r
        · by_cases h3 : c = '\n'
          · subst h3
            rw [show escapeChar '\n' = ['\\', 'n'] from rfl]
            simp only [List.cons_append, List.nil_append]
            simp [parseStringBodyF, unescapeChar]
            rw [heq]
            exact ih f r
          · by_cases h4 : c = '\r'
            · subst h4
              rw [show escapeChar '\r' = ['\\', 'r'] from rfl]
              simp only [List.cons_append, List.nil_append]
              simp [parseStringBodyF, unescapeChar]
              rw [heq]
              exact ih f r
            · by_cases h5 : c = '\t'
              · subst h5
                rw [show escapeChar '\t' = ['\\', 't'] from rfl]
                simp only [List.cons_append, List.nil_append]
                simp [parseStringBodyF, unescapeChar]
                rw [heq]
                exact ih f r
              · by_cases h6 : c.toNat < 32 ∨ c = '<' ∨ c = '>' ∨ c = '&'
                · have hesc : escapeChar c =
                      ['\\', 'u', '0', '0', hexDigit (c.toNat / 16), hexDigit (c.toNat % 16)] := by
                    rw [escapeChar, if_pos hlt, if_neg h1, if_neg h2, if_neg h3, if_neg h4,
                      if_neg h5, if_pos h6]
                  rw [hesc]
                  have hhi : fromHexDigit (hexDigit (c.toNat / 16)) = some (c.toNat / 16) :=
                    fromHexDigit_hexDigit _ (by omega)
                  have hlo : fromHexDigit (hexDigit (c.toNat % 16)) = some (c.toNat % 16) :=
                    fromHexDigit_hexDigit _ (by omega)
                  have hrr : c.toNat / 16 * 16 + c.toNat % 16 = c.toNat := by omega
                  have hns : ¬(55296 ≤ c.toNat ∧ c.toNat < 57344) := by omega
                  have h0 : fromHexDigit '0' = some 0 := by decide
                  simp only [List.cons_append, List.nil_append]
                  simp [parseStringBodyF, h0, hhi, hlo, hrr, hns, Char.ofNat_toNat]
                  rw [heq]
                  exact ih f r
                · have hesc : escapeChar c = [c] := by
                    rw [escapeChar, if_pos hlt, if_neg h1, if_neg h2, if_neg h3, if_neg h4,
                      if_neg h5, if_neg h6]
                  rw [hesc]
                  have hge : ¬(c.toNat < 32) := fun h => h6 (Or.inl h)
                  simp only [List.cons_append, List.nil_append]
                  simp [parseStringBodyF, h1, h2, hge]
                  rw [heq]
                  exact ih f r
    · by_cases hA : c.toNat = 8232
      · have hesc : escapeChar c = ['\\', 'u', '2', '0', '2', '8'] := by
          rw [escapeChar, if_neg hlt, if_pos hA]
        rw [hesc]
        have hc : Char.ofNat 8232 = c := (char_eq_of_toNat_eq c 8232 hA).symm
        have h0 : fromHexDigit '0' = some 0 := by decide
        have hd2 : fromHexDigit '2' = some 2 := by decide
        have hd8 : fromHexDigit '8' = some 8 := by decide
        simp only [List.cons_append, List.nil_append]
        simp [parseStringBodyF, h0, hd2, hd8, hc]
        rw [heq]
        exact ih f r
      · by_cases hB : c.toNat = 8233
        · have hesc : escapeChar c = ['\\', 'u', '2', '0', '2', '9'] := by
            rw [escapeChar, if_neg hlt, if_neg hA, if_pos hB]
          rw [hesc]
          have hc : Char.ofNat 8233 = c := (char_eq_of_toNat_eq c 8233 hB).symm
          have h0 : fromHexDigit '0' = some 0 := by decide
          have hd2 : fromHexDigit '2' = some 2 := by decide
          have hd9 : fromHexDigit '9' = some 9 := by decide
          simp only [List.cons_append, List.nil_append]
          simp [parseStringBodyF, h0, hd2, hd9, hc]
          rw [heq]
          exact ih f r
        · have hesc : escapeChar c = [c] := by
            rw [escapeChar, if_neg hlt, if_neg hA, if_neg hB]
          rw [hesc]
          have h1 : ¬(c = '"') := by
            intro h
            subst h
            exact hlt (by decide)
          have h2 : ¬(c = '\\') := by
            intro h
            subst h
            exact hlt (by decide)
          have hge : ¬(c.toNat < 32) := by omega
          simp only [List.cons_append, List.nil_append]
          simp [parseStringBodyF, h1, h2, hge]
          rw [heq]
          exact ih f r

theorem parseStringBody_escapeList (s r : List Char) :
    parseStringBody (escapeList s ++ ('"' :: r)) = some (s, r) := by
  have hge := escapeList_length_ge s
  have hlen : (escapeList s ++ ('"' :: r)).length =
      s.length + ((escapeList s).length - s.length + r.length) + 1 := by
    simp only [List.length_append, List.length_cons]
    omega
  rw [parseStringBody, hlen]
  exact parseStringBodyF_escapeList s _ r

theorem parseMembersLoop_cons (f : Nat) (k v : String) (tail : List Char) :
    parseMembersLoop (f + 1)
      ('\n' :: ' ' :: ' ' :: ' ' :: ' ' :: '"' ::
        (escapeList k.data ++ '"' :: ':' :: ' ' :: '"' ::
          (escapeList v.data ++ '"' :: ',' :: tail))) =
      (parseMembersLoop f tail).map (fun p => ((k.data, v.data) :: p.1, p.2)) := by
  rw [parseMembersLoop]
  simp [skipWs, parseStringBody_escapeList]
  rcases h : parseMembersLoop f tail with _ | ⟨rest, r7⟩ <;> simp [h]

theorem parseMembersLoop_last (f : Nat) (k v : String) :
    parseMembersLoop (f + 1)
      ('\n' :: ' ' :: ' ' :: ' ' :: ' ' :: '"' ::
        (escapeList k.data ++ '"' :: ':' :: ' ' :: '"' ::
          (escapeList v.data ++ '"' :: '\n' :: '\x7d' :: []))) =
      some ([(k.data, v.data)], []) := by
  rw [parseMembersLoop]
  simp [skipWs, parseStringBody_escapeList]

theorem parseMembersLoop_marshal (f : Nat) (a b c d : String) :
    parseMembersLoop (f + 4) (membersFrom a b c d) =
      some ([("github_username".data, a.data), ("github_repo".data, b.data),
             ("gitlab_username".data, c.data), ("gitlab_repo".data, d.data)], []) := by
  rw [membersFrom]
  rw [show f + 4 = f + 3 + 1 from rfl, parseMembersLoop_cons]
  rw [show f + 3 = f + 2 + 1 from rfl, parseMembersLoop_cons]
  rw [show f + 2 = f + 1 + 1 from rfl, parseMembersLoop_cons]
  rw [parseMembersLoop_last]
  simp

theorem unmarshalConfig_marshalConfig (c : Config) :
    unmarshalConfig (marshalConfig c) = some c := by
  obtain ⟨a, b, c2, d⟩ := c
  have hdata : (marshalConfig ⟨a, b, c2, d⟩).data = '\x7b' :: membersFrom a b c2 d := rfl
  have hlen3 : 3 ≤ ('\x7b' :: membersFrom a b c2 d).length := by
    rw [membersFrom]
    simp
  obtain ⟨f, hf⟩ : ∃ f, ('\x7b' :: membersFrom a b c2 d).length + 1 = f + 4 :=
    ⟨('\x7b' :: membersFrom a b c2 d).length - 3, by omega⟩
  rw [unmarshalConfig, hdata, hf]
  rw [show skipWs ('\x7b' :: membersFrom a b c2 d) = '\x7b' :: membersFrom a b c2 d from by
    rw [skipWs]
    simp]
  simp only []
  rw [show skipWs (membersFrom a b c2 d) =
      '"' :: (escapeList "github_username".data ++ '"' :: ':' :: ' ' :: '"' ::
        (escapeList a.data ++ '"' :: ',' :: '\n' :: ' ' :: ' ' :: ' ' :: ' ' :: '"' ::
        (escapeList "github_repo".data ++ '"' :: ':' :: ' ' :: '"' ::
        (escapeList b.data ++ '"' :: ',' :: '\n' :: ' ' :: ' ' :: ' ' :: ' ' :: '"' ::
        (escapeList "gitlab_username".data ++ '"' :: ':' :: ' ' :: '"' ::
        (escapeList c2.data ++ '"' :: ',' :: '\n' :: ' ' :: ' ' :: ' ' :: ' ' :: '"' ::
        (escapeList "gitlab_repo".data ++ '"' :: ':' :: ' ' :: '"' ::
        (escapeList d.data ++ '"' :: '\n' :: '\x7d' :: [])))))))) from by
    rw [membersFrom]
    simp [skipWs]]
  simp only []
  rw [parseMembersLoop_marshal]
  have k21 : ¬("github_repo".data = "github_username".data) := by decide
  have k31 : ¬("gitlab_username".data = "github_username".data) := by decide
  have k32 : ¬("gitlab_username".data = "github_repo".data) := by decide
  have k41 : ¬("gitlab_repo".data = "github_username".data) := by decide
  have k42 : ¬("gitlab_repo".data = "github_repo".data) := by decide
  have k43 : ¬("gitlab_repo".data = "gitlab_username".data) := by decide
  simp [skipWs, applyMember, zeroConfig, k21, k31, k32, k41, k42, k43]

/-- C9: configuration round trip — saving any four-string-field record with
`SaveConfig` and then loading it with `LoadConfig` yields the identical
record. -/
theorem C9_config_round_trip (fs : List (String × String)) (c : Config) :
    LoadConfig (SaveConfig fs c) = .ok c := by
  simp [SaveConfig, LoadConfig, List.lookup, unmarshalConfig_marshalConfig]

end GitMultiPush
